import Mathlib

/-!
# Verification of the deep4cast cross-validation module (`deep4cast/cv.py`)

Shallow embedding of the data model and operations of `cv.py`:
`FoldGenerator`, `VectorScaler`, `MetricsEvaluator`, `CrossValidator` and
`Optimizer`.  Machine floats are idealized as rationals `ℚ`; `np.sqrt`
(used only inside `np.std`) is irrational in general, so the embedding is
parametric in a square-root function `rsqrt : ℚ → ℚ`.  Fallible numpy
operations (out-of-range indexing, attribute errors, unfitted-scaler
errors) are embedded with `Option` / `Except`.
-/

set_option maxHeartbeats 1000000

namespace Deep4cast

/-- A single time step of a series: the values of all variables (features). -/
abbrev Row := List ℚ

/-- A 2-D time series of shape `(time_steps, variables)`. -/
abbrev Series := List Row

/-- A 3-D array: a collection of series / samples, shape `(n, time, vars)`. -/
abbrev Arr3 := List Series

/-- Python `int(q)`: truncation toward zero. -/
def pyTrunc (q : ℚ) : ℤ := if 0 ≤ q then q.floor else -(-q).floor

theorem ratFloor_eq_floor (q : ℚ) : q.floor = ⌊q⌋ := by
  rw [Rat.floor_def, Rat.floor_def']

theorem pyTrunc_eq_floor {q : ℚ} (h : 0 ≤ q) : pyTrunc q = ⌊q⌋ := by
  rw [pyTrunc, if_pos h, ratFloor_eq_floor]

/-- Embedding of `np.arange(a, b)` with step 1 over integers. -/
def intRange (a b : ℤ) : List ℤ := (List.range (b - a).toNat).map (fun (k : ℕ) => a + (k : ℤ))

/-- Numpy row indexing `ts[k, :]` with Python negative-index semantics:
a negative `k` counts from the end, and an index out of `[-len, len)`
raises `IndexError` (embedded as `none`). -/
def npGet (ts : Series) (k : ℤ) : Option Row :=
  let n : ℤ := ts.length
  let j := if k < 0 then k + n else k
  if 0 ≤ j ∧ j < n then ts.get? j.toNat else none

/-- Numpy fancy indexing `ts[ind, :]`: select the rows at the integer
indices `ind`, failing (`IndexError`) as soon as one index is out of range. -/
def sliceSeries (ts : Series) : List ℤ → Option Series
  | [] => some []
  | k :: ks =>
    match npGet ts k, sliceSeries ts ks with
    | some r, some rs => some (r :: rs)
    | _, _ => none

/-- Slice every series of a collection with the same index list
(the per-series loop bodies of `generate_folds`). -/
def sliceAll (d : Arr3) (ind : List ℤ) : Option Arr3 :=
  match d with
  | [] => some []
  | s :: ss =>
    match sliceSeries s ind, sliceAll ss ind with
    | some r, some rs => some (r :: rs)
    | _, _ => none

/-- Restrict a row to the target columns (`targets=None` keeps all columns). -/
def selectTargets (targets : Option (List ℕ)) (r : Row) : Row :=
  match targets with
  | none => r
  | some ts => ts.map (fun j => r.getD j 0)

/-- Modelled from the spec: `utils.sequentialize` is code of this repository
that is not under `src/` (only `cv.py` calls it).  Per the spec it is a
blackbox windowing transform: "given a 3-D array, a lag length, a horizon
length, and target column indices, produces feature windows of length `lag`
and target windows of length `horizon`, targets optionally restricted to a
subset of variables".  For one series it produces every consecutive
(lag-window, horizon-window) pair. -/
def sequentializeOne (lag horizon : ℕ) (targets : Option (List ℕ)) (s : Series) :
    List (Series × Series) :=
  (List.range (s.length + 1 - lag - horizon)).map (fun t =>
    ((s.drop t).take lag,
     ((s.drop (t + lag)).take horizon).map (selectTargets targets)))

/-- Modelled from the spec: `utils.sequentialize` on a collection, returning
the pair `(X, y)` of all feature windows and all target windows. -/
def sequentialize (d : Arr3) (lag horizon : ℕ) (targets : Option (List ℕ)) :
    List Series × List Series :=
  (d.flatMap (fun s => (sequentializeOne lag horizon targets s).map Prod.fst),
   d.flatMap (fun s => (sequentializeOne lag horizon targets s).map Prod.snd))

/-- One fold tuple `(X_train, X_test, y_train, y_test)` as yielded by
`FoldGenerator.generate_folds`. -/
structure Fold where
  X_train : List Series
  X_test : List Series
  y_train : List Series
  y_test : List Series
  deriving DecidableEq, Repr

/-- The constructor state of `FoldGenerator` (`cv.py`, lines 119-127). -/
structure FoldGenerator where
  data : Arr3
  targets : Option (List ℕ)
  lag : ℕ
  horizon : ℕ
  test_fraction : ℚ
  n_folds : ℕ
  deriving DecidableEq, Repr

namespace FoldGenerator

/-- Embedding of `data_length`: Python `max(len(ts) for ts in data)`; `max` of an empty
list raises (`none`). -/
def data_length (fg : FoldGenerator) : Option ℕ :=
  match fg.data.map List.length with
  | [] => none
  | h :: t => some (t.foldl max h)

/-- Embedding of `test_length = int(data_length * test_fraction)`. -/
def testLen (fg : FoldGenerator) (L : ℕ) : ℤ :=
  pyTrunc ((L : ℚ) * fg.test_fraction)

/-- Embedding of `train_length = data_length - n_folds * test_length`. -/
def trainLen (fg : FoldGenerator) (L : ℕ) : ℤ :=
  (L : ℤ) - (fg.n_folds : ℤ) * fg.testLen L

/-- Embedding of `train_ind = np.arange(-(i+1)*test_length - train_length, -(i+1)*test_length)`. -/
def train_ind (fg : FoldGenerator) (L : ℕ) (i : ℕ) : List ℤ :=
  intRange (-((i : ℤ) + 1) * fg.testLen L - fg.trainLen L) (-((i : ℤ) + 1) * fg.testLen L)

/-- Embedding of `test_ind = np.arange(-(i+1)*test_length - lag, -i*test_length)`. -/
def test_ind (fg : FoldGenerator) (L : ℕ) (i : ℕ) : List ℤ :=
  intRange (-((i : ℤ) + 1) * fg.testLen L - (fg.lag : ℤ)) (-(i : ℤ) * fg.testLen L)

/-- The body of one iteration of the fold loop of `generate_folds`
(`cv.py`, lines 144-173) once `data_length = L` is known: slice every
series with the train and test index ranges, then sequentialize both
stacks.  `none` embeds an `IndexError` raised while producing fold `i`. -/
def generate_fold_at (fg : FoldGenerator) (L : ℕ) (i : ℕ) : Option Fold := do
  let data_train ← sliceAll fg.data (fg.train_ind L i)
  let data_test ← sliceAll fg.data (fg.test_ind L i)
  let (xtr, ytr) := sequentialize data_train fg.lag fg.horizon fg.targets
  let (xte, yte) := sequentialize data_test fg.lag fg.horizon fg.targets
  pure ⟨xtr, xte, ytr, yte⟩

/-- Fold `i` of `generate_folds`: compute the maximum data length (raising
on empty data), then slice and sequentialize. -/
def generate_fold (fg : FoldGenerator) (i : ℕ) : Option Fold :=
  (fg.data_length).bind (fun L => fg.generate_fold_at L i)

/-- Embedding of `generate_folds`: the sequence of per-fold results for `i` in
`range(n_folds)` (a `none` marks the fold at which the generator raises). -/
def generate_folds (fg : FoldGenerator) : List (Option Fold) :=
  (List.range fg.n_folds).map fg.generate_fold

/-- The number of folds a consumer actually receives from one invocation of
the generator: every fold before the first exception. -/
def folds_yielded (fg : FoldGenerator) : ℕ :=
  ((fg.generate_folds).takeWhile Option.isSome).length

/-- The trailing length-`test_length` test block of fold `i`, as a set of
(negative, from-the-end) sample positions `[-(i+1)*test_length, -i*test_length)`. -/
def testBlock (fg : FoldGenerator) (L : ℕ) (i : ℕ) : Finset ℤ :=
  Finset.Ico (-((i : ℤ) + 1) * fg.testLen L) (-(i : ℤ) * fg.testLen L)

end FoldGenerator

/-- Embedding of `__call__` (`cv.py`, lines 129-130) returns a fresh generator object over
the stored parameters; the `FoldGenerator` object itself is not mutated.
The pair is (new generator state, the object after the call). -/
structure GenState where
  fg : FoldGenerator
  cursor : ℕ
  deriving DecidableEq, Repr

def FoldGenerator.call (fg : FoldGenerator) : GenState × FoldGenerator :=
  (⟨fg, 0⟩, fg)

namespace GenState

/-- One `next()` on a generator object: the next fold (or the exception it
raises, as `none`) together with the advanced generator state; `none`
overall is `StopIteration`. -/
def next (g : GenState) : Option (Option Fold × GenState) :=
  if g.cursor < g.fg.n_folds then
    some (g.fg.generate_fold g.cursor, ⟨g.fg, g.cursor + 1⟩)
  else none

/-- Exhaust a generator object, collecting everything it yields. -/
def force (g : GenState) : List (Option Fold) :=
  if h : g.cursor < g.fg.n_folds then
    g.fg.generate_fold g.cursor :: force ⟨g.fg, g.cursor + 1⟩
  else []
termination_by g.fg.n_folds - g.cursor
decreasing_by simp_wf; omega

/-- Advance a generator object by `k` calls to `next()`. -/
def consume (g : GenState) : ℕ → GenState
  | 0 => g
  | k + 1 =>
    match g.next with
    | some (_, g1) => consume g1 k
    | none => g

theorem force_eq_next (g : GenState) :
    g.force = match g.next with
      | none => []
      | some (f, g1) => f :: g1.force := by
  rw [GenState.force.eq_def, next]
  split
  · next h => rfl
  · next h => rfl

theorem force_cursor (g : GenState) :
    g.force =
      (List.range (g.fg.n_folds - g.cursor)).map
        (fun k => g.fg.generate_fold (g.cursor + k)) := by
  rw [GenState.force.eq_def]
  split
  · next h =>
    rw [force_cursor ⟨g.fg, g.cursor + 1⟩]
    have hs : g.fg.n_folds - g.cursor = (g.fg.n_folds - (g.cursor + 1)) + 1 := by omega
    rw [hs, List.range_succ_eq_map, List.map_cons, List.map_map]
    simp only [Nat.add_zero, Function.comp]
    congr 1
    apply List.map_congr_left
    intro a _
    congr 1
    omega
  · next h =>
    have hz : g.fg.n_folds - g.cursor = 0 := by omega
    rw [hz]
    rfl
termination_by g.fg.n_folds - g.cursor
decreasing_by simp_wf; omega

end GenState

/-! ### Arithmetic facts about the fold index ranges -/

theorem mem_intRange {a b k : ℤ} : k ∈ intRange a b ↔ a ≤ k ∧ k < b := by
  unfold intRange
  rw [List.mem_map]
  constructor
  · rintro ⟨m, hm, rfl⟩
    have hlt := List.mem_range.1 hm
    refine ⟨by omega, ?_⟩
    show a + (m : ℤ) < b
    omega
  · intro h
    refine ⟨(k - a).toNat, List.mem_range.2 (by omega), ?_⟩
    show a + ((k - a).toNat : ℤ) = k
    omega

theorem npGet_isSome {ts : Series} {k : ℤ}
    (h1 : -(ts.length : ℤ) ≤ k) (h2 : k < 0) : (npGet ts k).isSome := by
  simp only [npGet]
  rw [if_pos h2, if_pos (by constructor <;> omega)]
  have hlt : (k + (ts.length : ℤ)).toNat < ts.length := by omega
  rw [List.get?_eq_get hlt]
  rfl

theorem sliceSeries_isSome {ts : Series} {ind : List ℤ}
    (h : ∀ k ∈ ind, (npGet ts k).isSome) : (sliceSeries ts ind).isSome := by
  induction ind with
  | nil => rfl
  | cons k ks ih =>
    have hk := h k (List.mem_cons_self k ks)
    have hks := ih (fun x hx => h x (List.mem_cons_of_mem k hx))
    rw [sliceSeries]
    rcases Option.isSome_iff_exists.1 hk with ⟨r, hr⟩
    rcases Option.isSome_iff_exists.1 hks with ⟨rs, hrs⟩
    rw [hr, hrs]
    rfl

theorem sliceAll_isSome {d : Arr3} {ind : List ℤ}
    (h : ∀ s ∈ d, (sliceSeries s ind).isSome) : (sliceAll d ind).isSome := by
  induction d with
  | nil => rfl
  | cons s ss ih =>
    have hs := h s (List.mem_cons_self s ss)
    have hss := ih (fun x hx => h x (List.mem_cons_of_mem s hx))
    rw [sliceAll]
    rcases Option.isSome_iff_exists.1 hs with ⟨r, hr⟩
    rcases Option.isSome_iff_exists.1 hss with ⟨rs, hrs⟩
    rw [hr, hrs]
    rfl

theorem testLen_nonneg (fg : FoldGenerator) (L : ℕ) (htf : 0 ≤ fg.test_fraction) :
    0 ≤ fg.testLen L := by
  have hnn : (0:ℚ) ≤ (L : ℚ) * fg.test_fraction := mul_nonneg (by positivity) htf
  rw [FoldGenerator.testLen, pyTrunc_eq_floor hnn]
  exact Int.floor_nonneg.2 hnn

theorem next_some {g : GenState} {fo : Option Fold} {g1 : GenState}
    (h : g.next = some (fo, g1)) : g1 = ⟨g.fg, g.cursor + 1⟩ := by
  rw [GenState.next] at h
  split at h
  · injection h with hp
    exact (congrArg Prod.snd hp).symm
  · exact Option.noConfusion h

theorem consume_fg (g : GenState) (m : ℕ) : (g.consume m).fg = g.fg := by
  induction m generalizing g with
  | zero => rfl
  | succ m ih =>
    rw [GenState.consume]
    cases hn : g.next with
    | none => rfl
    | some p =>
      rcases p with ⟨fo, g1⟩
      rw [ih g1, next_some hn]

theorem force_zero (fg : FoldGenerator) :
    GenState.force ⟨fg, 0⟩ = fg.generate_folds := by
  rw [GenState.force_cursor]
  simp only [Nat.sub_zero, Nat.zero_add, FoldGenerator.generate_folds]

theorem sliceSeries_all_isSome (fg : FoldGenerator) (L : ℕ)
    (hEq : ∀ s ∈ fg.data, s.length = L)
    (htf : 0 ≤ fg.test_fraction)
    (hlag : (fg.lag : ℤ) ≤ fg.trainLen L)
    {i : ℕ} (hi : i < fg.n_folds) :
    (∀ s ∈ fg.data, (sliceSeries s (fg.train_ind L i)).isSome) ∧
    (∀ s ∈ fg.data, (sliceSeries s (fg.test_ind L i)).isSome) := by
  have ht0 : 0 ≤ fg.testLen L := testLen_nonneg fg L htf
  have hi1 : ((i : ℤ) + 1) ≤ (fg.n_folds : ℤ) := by exact_mod_cast Nat.succ_le_of_lt hi
  have hmul : ((i : ℤ) + 1) * fg.testLen L ≤ (fg.n_folds : ℤ) * fg.testLen L :=
    mul_le_mul_of_nonneg_right hi1 ht0
  have hit : 0 ≤ ((i : ℤ) + 1) * fg.testLen L :=
    mul_nonneg (by positivity) ht0
  have hit2 : 0 ≤ (i : ℤ) * fg.testLen L :=
    mul_nonneg (by positivity) ht0
  have htrEq : fg.trainLen L = (L : ℤ) - (fg.n_folds : ℤ) * fg.testLen L := rfl
  constructor
  · intro s hs
    apply sliceSeries_isSome
    intro k hk
    rw [FoldGenerator.train_ind] at hk
    have hmem := mem_intRange.1 hk
    have e1 := hmem.1
    have e2 := hmem.2
    apply npGet_isSome
    · rw [hEq s hs]
      nlinarith [e1, htrEq, hmul]
    · nlinarith [e2, hit]
  · intro s hs
    apply sliceSeries_isSome
    intro k hk
    rw [FoldGenerator.test_ind] at hk
    have hmem := mem_intRange.1 hk
    have e1 := hmem.1
    have e2 := hmem.2
    apply npGet_isSome
    · rw [hEq s hs]
      nlinarith [e1, htrEq, hmul, hlag]
    · nlinarith [e2, hit2]

theorem generate_fold_isSome (fg : FoldGenerator) (L : ℕ)
    (hL : fg.data_length = some L)
    (hEq : ∀ s ∈ fg.data, s.length = L)
    (htf : 0 ≤ fg.test_fraction)
    (hlag : (fg.lag : ℤ) ≤ fg.trainLen L)
    {i : ℕ} (hi : i < fg.n_folds) :
    (fg.generate_fold i).isSome := by
  obtain ⟨htr_ok, hte_ok⟩ := sliceSeries_all_isSome fg L hEq htf hlag hi
  rw [FoldGenerator.generate_fold, hL]
  show (fg.generate_fold_at L i).isSome
  rw [FoldGenerator.generate_fold_at]
  rcases Option.isSome_iff_exists.1 (sliceAll_isSome htr_ok) with ⟨dtr, hdtr⟩
  rcases Option.isSome_iff_exists.1 (sliceAll_isSome hte_ok) with ⟨dte, hdte⟩
  rw [hdtr, hdte]
  rfl

theorem takeWhile_of_all {α : Type} (p : α → Bool) :
    ∀ (l : List α), (∀ x ∈ l, p x) → l.takeWhile p = l
  | [], _ => rfl
  | x :: xs, h => by
    rw [List.takeWhile_cons, if_pos (h x (List.mem_cons_self x xs))]
    rw [takeWhile_of_all p xs (fun y hy => h y (List.mem_cons_of_mem x hy))]

theorem testLen_of_fifth {d : Arr3} {ts : Option (List ℕ)} {lag horizon n : ℕ} :
    FoldGenerator.testLen ⟨d, ts, lag, horizon, 1/5, n⟩ 10 = 2 := by
  have h : ((10 : ℕ) : ℚ) * (1 / 5) = 2 := by norm_num
  rw [FoldGenerator.testLen, h, pyTrunc_eq_floor (by norm_num), show ⌊(2:ℚ)⌋ = 2 by norm_num]




/-! ### Spec-side window formulas (for claim C2, stated from the spec text) -/

/-- Spec side, for comparison: `test_length = floor(L * test_fraction)`. -/
def specTestLength (L : ℕ) (tf : ℚ) : ℤ := ⌊(L : ℚ) * tf⌋

/-- Spec side, for comparison: `train_length = L - n_folds * test_length`. -/
def specTrainLength (L n : ℕ) (tf : ℚ) : ℤ := (L : ℤ) - (n : ℤ) * specTestLength L tf

/-- Spec side, for comparison: the train window
`[-(i+1)*test_length - train_length, -(i+1)*test_length)`. -/
def specTrainWindow (L n : ℕ) (tf : ℚ) (i : ℕ) : List ℤ :=
  intRange (-((i : ℤ) + 1) * specTestLength L tf - specTrainLength L n tf)
    (-((i : ℤ) + 1) * specTestLength L tf)

/-- Spec side, for comparison: the test window
`[-(i+1)*test_length - lag, -i*test_length)`. -/
def specTestWindow (L : ℕ) (tf : ℚ) (lag : ℕ) (i : ℕ) : List ℤ :=
  intRange (-((i : ℤ) + 1) * specTestLength L tf - (lag : ℤ))
    (-(i : ℤ) * specTestLength L tf)

/-! ### Concrete inputs used by witnesses and counterexamples -/

/-- A ragged collection (series lengths 10 and 5) with
`test_fraction = 1/5`, `n_folds = 2`, so `test_length = 2`,
`train_length = 6 > 0`. -/
def fgRagged : FoldGenerator :=
  ⟨[List.replicate 10 [(0 : ℚ)], List.replicate 5 [(1 : ℚ)]], none, 0, 1, 1/5, 2⟩

/-- An equal-length collection (two series of length 10) with `lag = 2`,
`test_fraction = 1/5`, `n_folds = 2`. -/
def fgEqual : FoldGenerator :=
  ⟨[List.replicate 10 [(0 : ℚ)], List.replicate 10 [(1 : ℚ)]], none, 2, 1, 1/5, 2⟩

/-- A single-series collection of length 10 used for the C2 witness. -/
def fgSpecW : FoldGenerator :=
  ⟨[List.replicate 10 [(5 : ℚ)]], none, 1, 1, 1/5, 2⟩

/-! ### Claim C1 -/

/-- Claim C1, amended.  For every collection in which every series has the
maximum length `L`, and every configuration with `test_fraction ≥ 0`,
`train_length > 0` and `lag ≤ train_length`, one invocation of
`FoldGenerator.generate_folds` yields exactly `n_folds` fold tuples, and
the `test_length`-sized test blocks `[-(i+1)*test_length, -i*test_length)`
of any two distinct folds are disjoint.  (The original claim, quantified
over *every* collection, fails: a series shorter than `L` makes the
negative slice indices go out of range, so the generator raises
`IndexError` before yielding all folds — see the counterexample.) -/
theorem C1_fold_count_and_disjoint_test_blocks (fg : FoldGenerator) (L : ℕ)
    (hL : fg.data_length = some L)
    (hEq : ∀ s ∈ fg.data, s.length = L)
    (htf : 0 ≤ fg.test_fraction)
    (_htr : 0 < fg.trainLen L)
    (hlag : (fg.lag : ℤ) ≤ fg.trainLen L) :
    fg.folds_yielded = fg.n_folds ∧
    ∀ i j : ℕ, i ≠ j → Disjoint (fg.testBlock L i) (fg.testBlock L j) := by
  constructor
  · rw [FoldGenerator.folds_yielded]
    have hall : ∀ x ∈ fg.generate_folds, Option.isSome x := by
      intro x hx
      rcases List.mem_map.1 hx with ⟨i, hi, rfl⟩
      exact generate_fold_isSome fg L hL hEq htf hlag (List.mem_range.1 hi)
    rw [takeWhile_of_all _ _ hall, FoldGenerator.generate_folds, List.length_map,
      List.length_range]
  · intro i j hne
    have ht0 : 0 ≤ fg.testLen L := testLen_nonneg fg L htf
    rw [Finset.disjoint_left]
    intro x hxi hxj
    rw [FoldGenerator.testBlock, Finset.mem_Ico] at hxi hxj
    rcases Nat.lt_or_ge i j with hij | hij
    · have hle : ((i : ℤ) + 1) ≤ (j : ℤ) := by exact_mod_cast hij
      nlinarith [hxi.1, hxj.2, mul_le_mul_of_nonneg_right hle ht0]
    · have hij2 : j < i := by omega
      have hle : ((j : ℤ) + 1) ≤ (i : ℤ) := by exact_mod_cast hij2
      nlinarith [hxj.1, hxi.2, mul_le_mul_of_nonneg_right hle ht0]

/-- Claim C1, counterexample to the original claim.  On the ragged collection
`fgRagged` the configuration is valid (`train_length = 6 > 0`), yet the
generator raises `IndexError` while slicing the shorter series in fold 0
and yields 0 of its 2 folds. -/
theorem C1_counterexample :
    fgRagged.data_length = some 10 ∧
    0 < fgRagged.trainLen 10 ∧
    fgRagged.folds_yielded ≠ fgRagged.n_folds := by
  have ht : fgRagged.testLen 10 = 2 := by
    unfold fgRagged
    exact testLen_of_fifth
  refine ⟨rfl, ?_, ?_⟩
  · rw [FoldGenerator.trainLen, ht]
    decide
  · simp only [FoldGenerator.folds_yielded, FoldGenerator.generate_folds,
      show List.range fgRagged.n_folds = [0, 1] from rfl, List.map_cons, List.map_nil,
      FoldGenerator.generate_fold,
      show fgRagged.data_length = some 10 from rfl,
      Option.some_bind, FoldGenerator.generate_fold_at, FoldGenerator.train_ind,
      FoldGenerator.test_ind, FoldGenerator.trainLen, ht]
    decide

theorem C1_witness :
    fgEqual.folds_yielded = fgEqual.n_folds ∧
    ∀ i j : ℕ, i ≠ j → Disjoint (fgEqual.testBlock 10 i) (fgEqual.testBlock 10 j) := by
  have ht : fgEqual.testLen 10 = 2 := by
    unfold fgEqual
    exact testLen_of_fifth
  refine C1_fold_count_and_disjoint_test_blocks fgEqual 10 rfl ?_ (by norm_num [fgEqual]) ?_ ?_
  · intro s hs
    simp only [fgEqual, List.mem_cons, List.not_mem_nil, or_false] at hs
    rcases hs with h | h <;> subst h <;> simp
  · rw [FoldGenerator.trainLen, ht]
    decide
  · rw [FoldGenerator.trainLen, ht]
    decide

/-! ### Claim C2 -/

/-- Claim C2.  For every fold index `i`, the generator slices each series
with the train window `[-(i+1)*test_length - train_length,
-(i+1)*test_length)` and the test window `[-(i+1)*test_length - lag,
-i*test_length)`, where `test_length = floor(L * test_fraction)` and
`train_length = L - n_folds * test_length` for `L` the maximum series
length across the collection (here `0 ≤ test_fraction`, so Python's
`int()` truncation agrees with `floor`). -/
theorem C2_fold_window_formulas (fg : FoldGenerator) (L : ℕ)
    (hL : fg.data_length = some L)
    (htf : 0 ≤ fg.test_fraction) :
    ∀ i : ℕ,
      fg.testLen L = specTestLength L fg.test_fraction ∧
      fg.trainLen L = specTrainLength L fg.n_folds fg.test_fraction ∧
      fg.train_ind L i = specTrainWindow L fg.n_folds fg.test_fraction i ∧
      fg.test_ind L i = specTestWindow L fg.test_fraction fg.lag i ∧
      fg.generate_fold i =
        (sliceAll fg.data (specTrainWindow L fg.n_folds fg.test_fraction i)).bind
          (fun data_train =>
            (sliceAll fg.data (specTestWindow L fg.test_fraction fg.lag i)).bind
              (fun data_test =>
                some ⟨(sequentialize data_train fg.lag fg.horizon fg.targets).1,
                      (sequentialize data_test fg.lag fg.horizon fg.targets).1,
                      (sequentialize data_train fg.lag fg.horizon fg.targets).2,
                      (sequentialize data_test fg.lag fg.horizon fg.targets).2⟩)) := by
  intro i
  have h1 : fg.testLen L = specTestLength L fg.test_fraction := by
    rw [FoldGenerator.testLen, specTestLength,
      pyTrunc_eq_floor (mul_nonneg (by positivity) htf)]
  have h2 : fg.trainLen L = specTrainLength L fg.n_folds fg.test_fraction := by
    rw [FoldGenerator.trainLen, specTrainLength, h1]
  have h3 : fg.train_ind L i = specTrainWindow L fg.n_folds fg.test_fraction i := by
    rw [FoldGenerator.train_ind, specTrainWindow, h1, h2]
  have h4 : fg.test_ind L i = specTestWindow L fg.test_fraction fg.lag i := by
    rw [FoldGenerator.test_ind, specTestWindow, h1]
  refine ⟨h1, h2, h3, h4, ?_⟩
  rw [FoldGenerator.generate_fold, hL, ← h3, ← h4]
  rfl

theorem C2_witness :
    fgSpecW.testLen 10 = specTestLength 10 fgSpecW.test_fraction ∧
    fgSpecW.trainLen 10 = specTrainLength 10 fgSpecW.n_folds fgSpecW.test_fraction ∧
    fgSpecW.train_ind 10 0 = specTrainWindow 10 fgSpecW.n_folds fgSpecW.test_fraction 0 ∧
    fgSpecW.test_ind 10 0 = specTestWindow 10 fgSpecW.test_fraction fgSpecW.lag 0 ∧
    fgSpecW.generate_fold 0 =
      (sliceAll fgSpecW.data (specTrainWindow 10 fgSpecW.n_folds fgSpecW.test_fraction 0)).bind
        (fun data_train =>
          (sliceAll fgSpecW.data (specTestWindow 10 fgSpecW.test_fraction fgSpecW.lag 0)).bind
            (fun data_test =>
              some ⟨(sequentialize data_train fgSpecW.lag fgSpecW.horizon fgSpecW.targets).1,
                    (sequentialize data_test fgSpecW.lag fgSpecW.horizon fgSpecW.targets).1,
                    (sequentialize data_train fgSpecW.lag fgSpecW.horizon fgSpecW.targets).2,
                    (sequentialize data_test fgSpecW.lag fgSpecW.horizon fgSpecW.targets).2⟩)) :=
  C2_fold_window_formulas fgSpecW 10 rfl (by norm_num [fgSpecW]) 0

/-! ### Claim C3 -/

/-- Claim C3.  Generation is deterministic and restartable: `__call__`
leaves the `FoldGenerator` object unchanged, each invocation produces the
full fold sequence from fold 0, and a second invocation made after
consuming any number `k` of folds from the first still produces the same,
value-identical sequence — no mutable cursor is shared between
invocations. -/
theorem C3_generation_deterministic_and_restartable (fg : FoldGenerator) (k : ℕ) :
    (fg.call).2 = fg ∧
    (fg.call).1.force = fg.generate_folds ∧
    ((((fg.call).1.consume k).fg).call).1.force = fg.generate_folds := by
  refine ⟨rfl, force_zero fg, ?_⟩
  have hfg : (((fg.call).1.consume k).fg) = fg := consume_fg ⟨fg, 0⟩ k
  rw [hfg]
  exact force_zero fg


/-! ## VectorScaler (`cv.py`, lines 207-270)

Numpy element arithmetic is idealized over `ℚ`; `np.sqrt` (inside
`np.std`) is abstracted as a parameter `rsqrt : ℚ → ℚ`.  Note that `ℚ`
division by zero yields 0 where numpy floats yield `inf`/`nan`; the
round-trip theorem below therefore carries a nonzero-std hypothesis, and
the counterexample notes where this matters. -/

/-- Elementwise 2-D operation (numpy broadcasting of identically-shaped
2-D arrays). -/
def zip2 (f : ℚ → ℚ → ℚ) (a b : Series) : Series :=
  List.zipWith (List.zipWith f) a b

def add2 (a b : Series) : Series := zip2 (· + ·) a b

def sub2 (a b : Series) : Series := zip2 (· - ·) a b

def mul2 (a b : Series) : Series := zip2 (· * ·) a b

def div2 (a b : Series) : Series := zip2 (· / ·) a b

/-- Embedding of `np.mean(X, axis=0)`: elementwise mean over the leading axis. -/
def meanAx0 (X : Arr3) : Series :=
  match X with
  | [] => []
  | h :: t => (t.foldl add2 h).map (fun r => r.map (fun v => v / ((t.length + 1 : ℕ) : ℚ)))

/-- The square under `np.std(X, axis=0)`: elementwise mean of squared
deviations from the column mean. -/
def varAx0 (X : Arr3) : Series :=
  meanAx0 (X.map (fun sm => mul2 (sub2 sm (meanAx0 X)) (sub2 sm (meanAx0 X))))

/-- Embedding of `np.std(X, axis=0) = sqrt(var)`, parametric in the square root. -/
def stdAx0 (rsqrt : ℚ → ℚ) (X : Arr3) : Series :=
  (varAx0 X).map (fun r => r.map rsqrt)

/-- Embedding of `X.shape[1]` of a 3-D array (numpy arrays are rectangular). -/
def pyShape1 (X : Arr3) : ℕ :=
  match X with
  | [] => 0
  | sm :: _ => sm.length

/-- Embedding of `X.shape[2]` of a 3-D array. -/
def pyShape2 (X : Arr3) : ℕ :=
  match X with
  | [] => 0
  | sm :: _ =>
    match sm with
    | [] => 0
    | r :: _ => r.length

/-- Embedding of `X[:, :, targets]`: select the target columns of every row. -/
def selectCols (ts : List ℕ) (X : Arr3) : Arr3 :=
  X.map (fun sm => sm.map (fun r => ts.map (fun j => r.getD j 0)))

/-- Embedding of `np.concatenate(·, ·, axis=1)` of two 2-D arrays: row-wise append. -/
def cat1 (a b : Series) : Series := List.zipWith (fun r q => r ++ q) a b

/-- The constructor state of `VectorScaler` (`cv.py`, lines 210-217);
the `None` statistics of an unfitted scaler are embedded as `[]`,
distinguished by the fitted flags exactly as in the source. -/
structure VectorScaler where
  targets : Option (List ℕ)
  x_mean : Series
  x_std : Series
  x_is_fitted : Bool
  y_mean : Series
  y_std : Series
  y_is_fitted : Bool
  deriving DecidableEq, Repr

namespace VectorScaler

/-- Embedding of `VectorScaler.__init__`. -/
def init (targets : Option (List ℕ)) : VectorScaler :=
  ⟨targets, [], [], false, [], [], false⟩

/-- Embedding of `fit_x` (`cv.py`, lines 219-238): unrestricted mean/std over all
columns, or target-restricted statistics padded with zeros (means) and
ones (stds) for the remaining columns. -/
def fit_x (rsqrt : ℚ → ℚ) (s : VectorScaler) (X : Arr3) : VectorScaler :=
  match s.targets with
  | none =>
    { s with x_mean := meanAx0 X, x_std := stdAx0 rsqrt X, x_is_fitted := true }
  | some ts =>
    let Xt := selectCols ts X
    let mean := meanAx0 Xt
    let std := stdAx0 rsqrt Xt
    let zeros := List.replicate (pyShape1 X) (List.replicate (pyShape2 X - ts.length) (0 : ℚ))
    let ones := List.replicate (pyShape1 X) (List.replicate (pyShape2 X - ts.length) (1 : ℚ))
    { s with x_mean := cat1 mean zeros, x_std := cat1 std ones, x_is_fitted := true }

/-- Embedding of `fit_y` (`cv.py`, lines 240-244). -/
def fit_y (rsqrt : ℚ → ℚ) (s : VectorScaler) (y : Arr3) : VectorScaler :=
  { s with y_mean := meanAx0 y, y_std := stdAx0 rsqrt y, y_is_fitted := true }

/-- Embedding of `transform_x`: `(X - x_mean) / x_std`, broadcast over axis 0. -/
def transform_x (s : VectorScaler) (X : Arr3) : Arr3 :=
  X.map (fun sm => div2 (sub2 sm s.x_mean) s.x_std)

/-- Embedding of `transform_y`: `(y - y_mean) / y_std`, broadcast over axis 0. -/
def transform_y (s : VectorScaler) (y : Arr3) : Arr3 :=
  y.map (fun sm => div2 (sub2 sm s.y_mean) s.y_std)

/-- Embedding of `fit_transform_x`: fit, then transform (returns the mutated scaler
and the transformed data). -/
def fit_transform_x (rsqrt : ℚ → ℚ) (s : VectorScaler) (X : Arr3) : VectorScaler × Arr3 :=
  let s1 := s.fit_x rsqrt X
  (s1, s1.transform_x X)

/-- Embedding of `fit_transform_y`: fit, then transform. -/
def fit_transform_y (rsqrt : ℚ → ℚ) (s : VectorScaler) (y : Arr3) : VectorScaler × Arr3 :=
  let s1 := s.fit_y rsqrt y
  (s1, s1.transform_y y)

/-- Embedding of `inverse_transform_x` (`cv.py`, lines 260-264): `X * x_std + x_mean`,
or `ValueError('Not fitted on X.')` when `fit_x` was never called. -/
def inverse_transform_x (s : VectorScaler) (X : Arr3) : Except String Arr3 :=
  if s.x_is_fitted then
    .ok (X.map (fun sm => add2 (mul2 sm s.x_std) s.x_mean))
  else
    .error "Not fitted on X."

/-- Embedding of `inverse_transform_y` (`cv.py`, lines 266-270). -/
def inverse_transform_y (s : VectorScaler) (y : Arr3) : Except String Arr3 :=
  if s.y_is_fitted then
    .ok (y.map (fun sm => add2 (mul2 sm s.y_std) s.y_mean))
  else
    .error "Not fitted on y."

end VectorScaler

/-! ### Round-trip lemmas for claim C4 -/

theorem map_id_of {α : Type} (f : α → α) :
    ∀ (l : List α), (∀ x ∈ l, f x = x) → l.map f = l
  | [], _ => rfl
  | x :: xs, h => by
    rw [List.map_cons, h x (List.mem_cons_self x xs),
      map_id_of f xs (fun y hy => h y (List.mem_cons_of_mem x hy))]

theorem roundtrip_row : ∀ (x m sd : List ℚ),
    x.length = m.length → m.length = sd.length → (∀ v ∈ sd, v ≠ 0) →
    List.zipWith (· + ·)
      (List.zipWith (· * ·)
        (List.zipWith (· / ·) (List.zipWith (· - ·) x m) sd) sd) m = x := by
  intro x
  induction x with
  | nil => intro m sd h1 h2 h3; rfl
  | cons a x ih =>
    intro m sd h1 h2 h3
    cases m with
    | nil => simp at h1
    | cons b m =>
      cases sd with
      | nil => simp at h2
      | cons c sd =>
        simp only [List.zipWith_cons_cons]
        have hc : c ≠ 0 := h3 c (List.mem_cons_self c sd)
        rw [ih m sd (by simpa using h1) (by simpa using h2)
          (fun v hv => h3 v (List.mem_cons_of_mem c hv))]
        congr 1
        field_simp

theorem roundtrip_mat : ∀ (x m sd : Series),
    x.map List.length = m.map List.length → m.map List.length = sd.map List.length →
    (∀ r ∈ sd, ∀ v ∈ r, v ≠ 0) →
    add2 (mul2 (div2 (sub2 x m) sd) sd) m = x := by
  intro x
  induction x with
  | nil => intro m sd h1 h2 h3; rfl
  | cons r x ih =>
    intro m sd h1 h2 h3
    cases m with
    | nil => simp at h1
    | cons mr m =>
      cases sd with
      | nil => simp at h2
      | cons sr sd =>
        simp only [List.map_cons, List.cons.injEq] at h1 h2
        simp only [add2, mul2, div2, sub2, zip2, List.zipWith_cons_cons]
        rw [List.cons.injEq]
        constructor
        · exact roundtrip_row r mr sr h1.1 h2.1
            (fun v hv => h3 sr (List.mem_cons_self sr sd) v hv)
        · have := ih m sd h1.2 h2.2 (fun q hq v hv => h3 q (List.mem_cons_of_mem sr hq) v hv)
          simpa [add2, mul2, div2, sub2, zip2] using this

/-! ### Claim C4 -/

/-- The scaler of the C4 counterexample: fitted (unrestricted) on two
identical samples, so the fitted std is 0 (`np.sqrt 0 = 0`, matched here
by `rsqrt = id`). -/
def scalerConst : VectorScaler := (VectorScaler.init none).fit_x id [[[1]], [[1]]]

/-- Claim C4, amended.  For every fitted scaler whose fitted stds are all
nonzero, and every `X` (resp. `y`) of the fitted shape,
`inverse_transform_x (transform_x X) = X` and
`inverse_transform_y (transform_y y) = y` — exactly over `ℚ`, which is
the idealization of "within floating-point tolerance".  (The original
claim, for *every* fitted scaler, fails when a fitted feature is
constant: its std is 0, the transform divides by zero, and the round
trip does not return `X` — see the counterexample.) -/
theorem C4_scaler_roundtrip (s : VectorScaler) (X y : Arr3)
    (hxf : s.x_is_fitted = true)
    (hyf : s.y_is_fitted = true)
    (hxs : ∀ sm ∈ X, sm.map List.length = s.x_mean.map List.length ∧
      sm.map List.length = s.x_std.map List.length)
    (hys : ∀ sm ∈ y, sm.map List.length = s.y_mean.map List.length ∧
      sm.map List.length = s.y_std.map List.length)
    (hxnz : ∀ r ∈ s.x_std, ∀ v ∈ r, v ≠ 0)
    (hynz : ∀ r ∈ s.y_std, ∀ v ∈ r, v ≠ 0) :
    s.inverse_transform_x (s.transform_x X) = .ok X ∧
    s.inverse_transform_y (s.transform_y y) = .ok y := by
  constructor
  · rw [VectorScaler.inverse_transform_x, if_pos hxf, VectorScaler.transform_x,
      List.map_map]
    congr 1
    apply map_id_of
    intro sm hsm
    show add2 (mul2 (div2 (sub2 sm s.x_mean) s.x_std) s.x_std) s.x_mean = sm
    exact roundtrip_mat sm s.x_mean s.x_std (hxs sm hsm).1
      ((hxs sm hsm).1.symm.trans (hxs sm hsm).2) hxnz
  · rw [VectorScaler.inverse_transform_y, if_pos hyf, VectorScaler.transform_y,
      List.map_map]
    congr 1
    apply map_id_of
    intro sm hsm
    show add2 (mul2 (div2 (sub2 sm s.y_mean) s.y_std) s.y_std) s.y_mean = sm
    exact roundtrip_mat sm s.y_mean s.y_std (hys sm hsm).1
      ((hys sm hsm).1.symm.trans (hys sm hsm).2) hynz

/-- Claim C4, counterexample to the original claim.  `scalerConst` is a
fitted scaler (`fit_x` was called), yet the round trip on `X = [[[2]]]`
does not return `X`: the fitted std is 0, so the transform divides by
zero (`nan`/`inf` under numpy floats, 0 under the `ℚ` idealization —
the round trip returns the fitted mean `[[[1]]]` here, and `nan` under
floats, in both cases not `X`). -/
theorem C4_counterexample :
    scalerConst.x_is_fitted = true ∧
    scalerConst.inverse_transform_x (scalerConst.transform_x [[[2]]]) ≠ .ok [[[2]]] := by
  have hm : scalerConst.x_mean = [[1]] := by
    norm_num [scalerConst, VectorScaler.fit_x, VectorScaler.init, meanAx0, add2, zip2]
  have hs : scalerConst.x_std = [[0]] := by
    norm_num [scalerConst, VectorScaler.fit_x, VectorScaler.init, stdAx0, varAx0,
      meanAx0, add2, sub2, mul2, zip2]
  refine ⟨rfl, ?_⟩
  have hf : scalerConst.x_is_fitted = true := rfl
  rw [VectorScaler.transform_x, VectorScaler.inverse_transform_x, hm, hs, hf]
  norm_num [add2, sub2, mul2, div2, zip2]

theorem C4_witness :
    ((VectorScaler.init none).fit_x id [[[0]], [[2]]]).fit_y id [[[0]], [[2]]] =
      ⟨none, [[1]], [[1]], true, [[1]], [[1]], true⟩ ∧
    (((VectorScaler.init none).fit_x id [[[0]], [[2]]]).fit_y id
        [[[0]], [[2]]]).inverse_transform_x
      ((((VectorScaler.init none).fit_x id [[[0]], [[2]]]).fit_y id
        [[[0]], [[2]]]).transform_x [[[5]]]) = .ok [[[5]]] ∧
    (((VectorScaler.init none).fit_x id [[[0]], [[2]]]).fit_y id
        [[[0]], [[2]]]).inverse_transform_y
      ((((VectorScaler.init none).fit_x id [[[0]], [[2]]]).fit_y id
        [[[0]], [[2]]]).transform_y [[[7]]]) = .ok [[[7]]] := by
  have hEq : ((VectorScaler.init none).fit_x id [[[0]], [[2]]]).fit_y id [[[0]], [[2]]] =
      ⟨none, [[1]], [[1]], true, [[1]], [[1]], true⟩ := by
    norm_num [VectorScaler.fit_x, VectorScaler.fit_y, VectorScaler.init, stdAx0,
      varAx0, meanAx0, add2, sub2, mul2, zip2]
  refine ⟨hEq, ?_⟩
  rw [hEq]
  exact C4_scaler_roundtrip ⟨none, [[1]], [[1]], true, [[1]], [[1]], true⟩
    [[[5]]] [[[7]]] rfl rfl
    (by intro sm hsm; simp at hsm; subst hsm; simp)
    (by intro sm hsm; simp at hsm; subst hsm; simp)
    (by intro r hr v hv; simp at hr; subst hr; simp at hv; subst hv; norm_num)
    (by intro r hr v hv; simp at hr; subst hr; simp at hv; subst hv; norm_num)


/-! ### Shape lemmas for claim C5 -/

theorem zip_sub_replicate_zero : ∀ (xs : List ℚ) (n : ℕ), xs.length ≤ n →
    List.zipWith (· - ·) xs (List.replicate n (0 : ℚ)) = xs
  | [], _, _ => by simp
  | x :: xs, n + 1, h => by
    rw [List.replicate_succ, List.zipWith_cons_cons, sub_zero,
      zip_sub_replicate_zero xs n (by simpa using h)]

theorem zip_div_replicate_one : ∀ (xs : List ℚ) (n : ℕ), xs.length ≤ n →
    List.zipWith (· / ·) xs (List.replicate n (1 : ℚ)) = xs
  | [], _, _ => by simp
  | x :: xs, n + 1, h => by
    rw [List.replicate_succ, List.zipWith_cons_cons, div_one,
      zip_div_replicate_one xs n (by simpa using h)]

theorem zipWith_replicate_len {α β γ : Type} (f : α → β → γ) :
    ∀ (l : List α) (n : ℕ) (b : β), l.length = n →
      List.zipWith f l (List.replicate n b) = l.map (fun x => f x b)
  | [], _, _, h => by rw [← h]; rfl
  | x :: xs, n, b, h => by
    subst h
    rw [List.length_cons, List.replicate_succ, List.zipWith_cons_cons, List.map_cons,
      zipWith_replicate_len f xs xs.length b rfl]

theorem rowLens_zip2 (f : ℚ → ℚ → ℚ) : ∀ (a b : Series),
    a.map List.length = b.map List.length →
    (zip2 f a b).map List.length = a.map List.length
  | [], _, _ => rfl
  | r :: a, [], h => by simp at h
  | r :: a, q :: b, h => by
    simp only [List.map_cons, List.cons.injEq] at h
    simp only [zip2, List.zipWith_cons_cons, List.map_cons, List.cons.injEq]
    exact ⟨by rw [List.length_zipWith, h.1, Nat.min_self],
      rowLens_zip2 f a b h.2⟩

theorem rowLens_foldl_add2 : ∀ (l : List Series) (init : Series),
    (∀ m ∈ l, m.map List.length = init.map List.length) →
    (l.foldl add2 init).map List.length = init.map List.length
  | [], _, _ => rfl
  | m :: l, init, h => by
    rw [List.foldl_cons]
    have h1 : (add2 init m).map List.length = init.map List.length :=
      rowLens_zip2 _ init m (h m (List.mem_cons_self m l)).symm
    rw [rowLens_foldl_add2 l (add2 init m)
      (fun q hq => (h q (List.mem_cons_of_mem m hq)).trans h1.symm), h1]

theorem rowLens_scale (g : ℚ → ℚ) (m : Series) :
    (m.map (fun r => r.map g)).map List.length = m.map List.length := by
  simp [List.map_map, Function.comp]

theorem rowLens_meanAx0 {X : Arr3} {rl : List ℕ} (hne : X ≠ [])
    (h : ∀ sm ∈ X, sm.map List.length = rl) :
    (meanAx0 X).map List.length = rl := by
  cases X with
  | nil => exact absurd rfl hne
  | cons h0 t =>
    rw [meanAx0, rowLens_scale]
    rw [rowLens_foldl_add2 t h0 (fun m hm =>
      (h m (List.mem_cons_of_mem h0 hm)).trans (h h0 (List.mem_cons_self h0 t)).symm)]
    exact h h0 (List.mem_cons_self h0 t)

theorem rowLens_varAx0 {X : Arr3} {rl : List ℕ} (hne : X ≠ [])
    (h : ∀ sm ∈ X, sm.map List.length = rl) :
    (varAx0 X).map List.length = rl := by
  have hm : (meanAx0 X).map List.length = rl := rowLens_meanAx0 hne h
  rw [varAx0]
  apply rowLens_meanAx0
  · intro hE
    rw [List.map_eq_nil_iff] at hE
    exact hne hE
  · intro sm hsm
    rcases List.mem_map.1 hsm with ⟨q, hq, rfl⟩
    have hsub : (sub2 q (meanAx0 X)).map List.length = rl :=
      (rowLens_zip2 _ q (meanAx0 X) ((h q hq).trans hm.symm)).trans (h q hq)
    exact (rowLens_zip2 _ _ _ (hsub.trans hsub.symm)).trans hsub

theorem rowLens_stdAx0 (rsqrt : ℚ → ℚ) {X : Arr3} {rl : List ℕ} (hne : X ≠ [])
    (h : ∀ sm ∈ X, sm.map List.length = rl) :
    (stdAx0 rsqrt X).map List.length = rl := by
  rw [stdAx0, rowLens_scale]
  exact rowLens_varAx0 hne h

theorem rowLens_selectCols (ts : List ℕ) (sm : Series) :
    (sm.map (fun r => ts.map (fun j => r.getD j 0))).map List.length =
      List.replicate sm.length ts.length := by
  rw [List.map_map]
  have : (List.length ∘ fun r : Row => ts.map (fun j => r.getD j 0)) =
      fun _ : Row => ts.length := by
    funext r
    simp [Function.comp]
  rw [this, List.map_const']

theorem of_rowLens_replicate {m : Series} {T kk : ℕ}
    (h : m.map List.length = List.replicate T kk) :
    m.length = T ∧ ∀ r ∈ m, r.length = kk := by
  constructor
  · have := congrArg List.length h
    simpa using this
  · intro r hr
    have : r.length ∈ List.replicate T kk := h ▸ List.mem_map_of_mem List.length hr
    exact List.eq_of_mem_replicate this

theorem row_drop_eq (kk w : ℕ) (r m0 s0 : Row)
    (hm0 : m0.length = kk) (hs0 : s0.length = kk) (hr : r.length ≤ kk + w) :
    (List.zipWith (· / ·)
        (List.zipWith (· - ·) r (m0 ++ List.replicate w (0 : ℚ)))
        (s0 ++ List.replicate w (1 : ℚ))).drop kk = r.drop kk := by
  rw [List.drop_zipWith, List.drop_zipWith, List.drop_left' hm0, List.drop_left' hs0]
  rw [zip_sub_replicate_zero (r.drop kk) w (by simp; omega)]
  rw [zip_div_replicate_one (r.drop kk) w (by simp; omega)]

theorem transform_drop_eq (kk w : ℕ) : ∀ (sm ms ss : Series),
    sm.length = ms.length → ms.length = ss.length →
    (∀ r ∈ sm, r.length ≤ kk + w) →
    (∀ mr ∈ ms, ∃ m0, mr = m0 ++ List.replicate w (0 : ℚ) ∧ m0.length = kk) →
    (∀ sr ∈ ss, ∃ s0, sr = s0 ++ List.replicate w (1 : ℚ) ∧ s0.length = kk) →
    (div2 (sub2 sm ms) ss).map (fun r => r.drop kk) = sm.map (fun r => r.drop kk)
  | [], ms, ss, _, _, _, _, _ => rfl
  | r :: sm, [], ss, h1, _, _, _, _ => by simp at h1
  | r :: sm, mr :: ms, [], _, h2, _, _, _ => by simp at h2
  | r :: sm, mr :: ms, sr :: ss, h1, h2, hr, hms, hss => by
    simp only [div2, sub2, zip2, List.zipWith_cons_cons, List.map_cons]
    rcases hms mr (List.mem_cons_self mr ms) with ⟨m0, rfl, hm0⟩
    rcases hss sr (List.mem_cons_self sr ss) with ⟨s0, rfl, hs0⟩
    rw [List.cons.injEq]
    constructor
    · exact row_drop_eq kk w r m0 s0 hm0 hs0 (hr r (List.mem_cons_self r sm))
    · have := transform_drop_eq kk w sm ms ss (by simpa using h1) (by simpa using h2)
        (fun q hq => hr q (List.mem_cons_of_mem r hq))
        (fun q hq => hms q (List.mem_cons_of_mem _ hq))
        (fun q hq => hss q (List.mem_cons_of_mem _ hq))
      simpa [div2, sub2, zip2] using this


/-! ### Claim C5 -/

/-- The array of the C5 counterexample: two samples, one time step, two
feature columns; the designated target column is column 1. -/
def Xc5 : Arr3 := [[[5, 7]], [[5, 9]]]

/-- The scaler of the C5 counterexample: target-restricted fit with
`targets = [1]`, which is *not* an initial segment of the columns. -/
def scalerTgt : VectorScaler := (VectorScaler.init (some [1])).fit_x id Xc5

/-- Claim C5, amended.  When the designated targets are the *initial*
columns `[0, ..., k)` (the ordering assumption the spec calls
load-bearing), a target-restricted fit gives every non-target column
(index ≥ k) mean 0 and std 1, and `transform_x` leaves those columns of
`X` unchanged.  (The original claim, for arbitrary target sets, fails:
the restricted statistics are concatenated *first*, so for a non-prefix
target set they are applied to the wrong columns — see the
counterexample.) -/
theorem C5_prefix_targets_nontarget_columns_unchanged
    (rsqrt : ℚ → ℚ) (kk T F : ℕ) (X : Arr3)
    (hk : kk ≤ F)
    (hne : X ≠ [])
    (hshape : ∀ sm ∈ X, sm.length = T ∧ ∀ r ∈ sm, r.length = F) :
    (((VectorScaler.init (some (List.range kk))).fit_x rsqrt X).transform_x X).map
        (fun sm => sm.map (fun r => r.drop kk)) =
      X.map (fun sm => sm.map (fun r => r.drop kk)) ∧
    (∀ mr ∈ ((VectorScaler.init (some (List.range kk))).fit_x rsqrt X).x_mean,
      mr.drop kk = List.replicate (pyShape2 X - kk) (0 : ℚ)) ∧
    (∀ sr ∈ ((VectorScaler.init (some (List.range kk))).fit_x rsqrt X).x_std,
      sr.drop kk = List.replicate (pyShape2 X - kk) (1 : ℚ)) := by
  have hrange : (List.range kk).length = kk := List.length_range kk
  have hXt : ∀ sm1 ∈ selectCols (List.range kk) X,
      sm1.map List.length = List.replicate T kk := by
    intro sm1 hsm1
    rcases List.mem_map.1 hsm1 with ⟨sm, hsm, rfl⟩
    rw [rowLens_selectCols, hrange, (hshape sm hsm).1]
  have hXtne : selectCols (List.range kk) X ≠ [] := by
    intro hE
    rw [selectCols, List.map_eq_nil_iff] at hE
    exact hne hE
  have hmean := rowLens_meanAx0 hXtne hXt
  have hstd := rowLens_stdAx0 rsqrt hXtne hXt
  obtain ⟨hmlen, hmrows⟩ := of_rowLens_replicate hmean
  obtain ⟨hslen, hsrows⟩ := of_rowLens_replicate hstd
  have hp1 : pyShape1 X = T := by
    cases X with
    | nil => exact absurd rfl hne
    | cons sm0 t => exact (hshape sm0 (List.mem_cons_self sm0 t)).1
  have hxm : ((VectorScaler.init (some (List.range kk))).fit_x rsqrt X).x_mean =
      (meanAx0 (selectCols (List.range kk) X)).map
        (fun r => r ++ List.replicate (pyShape2 X - kk) (0 : ℚ)) := by
    show cat1 (meanAx0 (selectCols (List.range kk) X))
        (List.replicate (pyShape1 X)
          (List.replicate (pyShape2 X - (List.range kk).length) (0 : ℚ))) = _
    rw [hrange, cat1,
      zipWith_replicate_len _ _ (pyShape1 X) _ (by rw [hmlen, hp1])]
  have hxs : ((VectorScaler.init (some (List.range kk))).fit_x rsqrt X).x_std =
      (stdAx0 rsqrt (selectCols (List.range kk) X)).map
        (fun r => r ++ List.replicate (pyShape2 X - kk) (1 : ℚ)) := by
    show cat1 (stdAx0 rsqrt (selectCols (List.range kk) X))
        (List.replicate (pyShape1 X)
          (List.replicate (pyShape2 X - (List.range kk).length) (1 : ℚ))) = _
    rw [hrange, cat1,
      zipWith_replicate_len _ _ (pyShape1 X) _ (by rw [hslen, hp1])]
  have hF : ∀ sm ∈ X, ∀ r ∈ sm, r.length ≤ kk + (pyShape2 X - kk) := by
    intro sm hsm r hr
    have hsmT := (hshape sm hsm).1
    have hT : 0 < T := by
      rw [← hsmT]
      exact List.length_pos.2 (List.ne_nil_of_mem hr)
    have hrF : r.length = F := (hshape sm hsm).2 r hr
    cases X with
    | nil => exact absurd rfl hne
    | cons sm0 t =>
      cases sm0 with
      | nil =>
        have h0 : (0 : ℕ) = T := (hshape [] (List.mem_cons_self [] t)).1
        omega
      | cons r0 rows =>
        have hr0F : r0.length = F :=
          (hshape (r0 :: rows) (List.mem_cons_self (r0 :: rows) t)).2 r0
            (List.mem_cons_self r0 rows)
        have hp2 : pyShape2 ((r0 :: rows) :: t) = r0.length := rfl
        rw [hrF, hp2, hr0F]
        omega
  refine ⟨?_, ?_, ?_⟩
  · rw [VectorScaler.transform_x, hxm, hxs, List.map_map]
    apply List.map_congr_left
    intro sm hsm
    show (div2 (sub2 sm _) _).map (fun r => r.drop kk) = sm.map (fun r => r.drop kk)
    apply transform_drop_eq kk (pyShape2 X - kk) sm _ _
    · rw [List.length_map, hmlen, (hshape sm hsm).1]
    · rw [List.length_map, List.length_map, hmlen, hslen]
    · exact hF sm hsm
    · intro mr hmr
      rcases List.mem_map.1 hmr with ⟨r0, hr0, rfl⟩
      exact ⟨r0, rfl, hmrows r0 hr0⟩
    · intro sr hsr
      rcases List.mem_map.1 hsr with ⟨r0, hr0, rfl⟩
      exact ⟨r0, rfl, hsrows r0 hr0⟩
  · intro mr hmr
    rw [hxm] at hmr
    rcases List.mem_map.1 hmr with ⟨r0, hr0, rfl⟩
    rw [List.drop_left' (hmrows r0 hr0)]
  · intro sr hsr
    rw [hxs] at hsr
    rcases List.mem_map.1 hsr with ⟨r0, hr0, rfl⟩
    rw [List.drop_left' (hsrows r0 hr0)]

/-- Claim C5, counterexample to the original claim.  With `targets = [1]`
(not a prefix), column 0 is a non-target column, yet `transform_x`
changes it: the restricted statistics of column 1 (mean 8, std 1) are
applied to column 0, turning the value 5 into `(5 - 8)/1 = -3`. -/
theorem C5_counterexample :
    (0 : ℕ) ∉ [1] ∧
    (scalerTgt.transform_x Xc5).map (fun sm => sm.map (fun r => r.getD 0 0)) ≠
      Xc5.map (fun sm => sm.map (fun r => r.getD 0 0)) := by
  have hm : scalerTgt.x_mean = [[8, 0]] := by
    norm_num [scalerTgt, Xc5, VectorScaler.fit_x, VectorScaler.init, selectCols,
      meanAx0, add2, zip2, cat1, pyShape1, pyShape2]
  have hs : scalerTgt.x_std = [[1, 1]] := by
    norm_num [scalerTgt, Xc5, VectorScaler.fit_x, VectorScaler.init, selectCols,
      stdAx0, varAx0, meanAx0, add2, sub2, mul2, zip2, cat1, pyShape1, pyShape2]
  refine ⟨by decide, ?_⟩
  rw [VectorScaler.transform_x, hm, hs]
  norm_num [Xc5, sub2, div2, zip2]

theorem C5_witness :
    ((((VectorScaler.init (some (List.range 1))).fit_x id
          [[[5, 7]], [[6, 9]]]).transform_x [[[5, 7]], [[6, 9]]]).map
        (fun sm => sm.map (fun r => r.drop 1)) =
      ([[[5, 7]], [[6, 9]]] : Arr3).map (fun sm => sm.map (fun r => r.drop 1))) ∧
    (∀ mr ∈ ((VectorScaler.init (some (List.range 1))).fit_x id
        [[[5, 7]], [[6, 9]]]).x_mean,
      mr.drop 1 = List.replicate (pyShape2 [[[5, 7]], [[6, 9]]] - 1) (0 : ℚ)) ∧
    (∀ sr ∈ ((VectorScaler.init (some (List.range 1))).fit_x id
        [[[5, 7]], [[6, 9]]]).x_std,
      sr.drop 1 = List.replicate (pyShape2 [[[5, 7]], [[6, 9]]] - 1) (1 : ℚ)) :=
  C5_prefix_targets_nontarget_columns_unchanged id 1 1 2 [[[5, 7]], [[6, 9]]]
    (by decide) (by decide) (by decide)


/-! ### Claim C6: the scaler operations as a trace -/

/-- One call to a `VectorScaler` method (the argument arrays carried
along).  Only the fit methods mutate the object. -/
inductive ScalerOp where
  | fitX (X : Arr3)
  | fitY (y : Arr3)
  | fitTransformX (X : Arr3)
  | fitTransformY (y : Arr3)
  | transformX (X : Arr3)
  | transformY (y : Arr3)
  | inverseX (X : Arr3)
  | inverseY (y : Arr3)
  deriving DecidableEq, Repr

/-- The state mutation each method performs on the scaler object
(`transform_*` and `inverse_transform_*` read but never write). -/
def ScalerOp.apply (rsqrt : ℚ → ℚ) (s : VectorScaler) : ScalerOp → VectorScaler
  | .fitX X => s.fit_x rsqrt X
  | .fitY y => s.fit_y rsqrt y
  | .fitTransformX X => (s.fit_transform_x rsqrt X).1
  | .fitTransformY y => (s.fit_transform_y rsqrt y).1
  | .transformX _ => s
  | .transformY _ => s
  | .inverseX _ => s
  | .inverseY _ => s

/-- The scaler state after a whole call trace. -/
def applyOps (rsqrt : ℚ → ℚ) (s : VectorScaler) (tr : List ScalerOp) : VectorScaler :=
  tr.foldl (ScalerOp.apply rsqrt) s

/-- Whether an operation calls `fit_x` (directly or via `fit_transform_x`). -/
def ScalerOp.fitsX : ScalerOp → Bool
  | .fitX _ => true
  | .fitTransformX _ => true
  | _ => false

/-- Whether an operation calls `fit_y` (directly or via `fit_transform_y`). -/
def ScalerOp.fitsY : ScalerOp → Bool
  | .fitY _ => true
  | .fitTransformY _ => true
  | _ => false

theorem apply_fitted_x (rsqrt : ℚ → ℚ) (s : VectorScaler) (op : ScalerOp) :
    (ScalerOp.apply rsqrt s op).x_is_fitted = (s.x_is_fitted || op.fitsX) := by
  cases op with
  | fitX X =>
    cases htg : s.targets <;>
      simp [ScalerOp.apply, VectorScaler.fit_x, htg, ScalerOp.fitsX]
  | fitTransformX X =>
    cases htg : s.targets <;>
      simp [ScalerOp.apply, VectorScaler.fit_transform_x, VectorScaler.fit_x, htg,
        ScalerOp.fitsX]
  | fitY y => simp [ScalerOp.apply, VectorScaler.fit_y, ScalerOp.fitsX]
  | fitTransformY y =>
    simp [ScalerOp.apply, VectorScaler.fit_transform_y, VectorScaler.fit_y,
      ScalerOp.fitsX]
  | transformX X => simp [ScalerOp.apply, ScalerOp.fitsX]
  | transformY y => simp [ScalerOp.apply, ScalerOp.fitsX]
  | inverseX X => simp [ScalerOp.apply, ScalerOp.fitsX]
  | inverseY y => simp [ScalerOp.apply, ScalerOp.fitsX]

theorem apply_fitted_y (rsqrt : ℚ → ℚ) (s : VectorScaler) (op : ScalerOp) :
    (ScalerOp.apply rsqrt s op).y_is_fitted = (s.y_is_fitted || op.fitsY) := by
  cases op with
  | fitX X =>
    cases htg : s.targets <;>
      simp [ScalerOp.apply, VectorScaler.fit_x, htg, ScalerOp.fitsY]
  | fitTransformX X =>
    cases htg : s.targets <;>
      simp [ScalerOp.apply, VectorScaler.fit_transform_x, VectorScaler.fit_x, htg,
        ScalerOp.fitsY]
  | fitY y => simp [ScalerOp.apply, VectorScaler.fit_y, ScalerOp.fitsY]
  | fitTransformY y =>
    simp [ScalerOp.apply, VectorScaler.fit_transform_y, VectorScaler.fit_y,
      ScalerOp.fitsY]
  | transformX X => simp [ScalerOp.apply, ScalerOp.fitsY]
  | transformY y => simp [ScalerOp.apply, ScalerOp.fitsY]
  | inverseX X => simp [ScalerOp.apply, ScalerOp.fitsY]
  | inverseY y => simp [ScalerOp.apply, ScalerOp.fitsY]

theorem applyOps_fitted_x (rsqrt : ℚ → ℚ) (tr : List ScalerOp) :
    ∀ s : VectorScaler,
      (applyOps rsqrt s tr).x_is_fitted = (s.x_is_fitted || tr.any ScalerOp.fitsX) := by
  induction tr with
  | nil => intro s; simp [applyOps]
  | cons op tr ih =>
    intro s
    show (applyOps rsqrt (ScalerOp.apply rsqrt s op) tr).x_is_fitted = _
    rw [ih (ScalerOp.apply rsqrt s op), apply_fitted_x]
    simp [List.any_cons, Bool.or_assoc]

theorem applyOps_fitted_y (rsqrt : ℚ → ℚ) (tr : List ScalerOp) :
    ∀ s : VectorScaler,
      (applyOps rsqrt s tr).y_is_fitted = (s.y_is_fitted || tr.any ScalerOp.fitsY) := by
  induction tr with
  | nil => intro s; simp [applyOps]
  | cons op tr ih =>
    intro s
    show (applyOps rsqrt (ScalerOp.apply rsqrt s op) tr).y_is_fitted = _
    rw [ih (ScalerOp.apply rsqrt s op), apply_fitted_y]
    simp [List.any_cons, Bool.or_assoc]

/-- Claim C6.  Along every trace of scaler method calls starting from a
fresh `VectorScaler`, `inverse_transform_x` raises the
`'Not fitted on X.'` error **iff** no operation of the trace called
`fit_x` (directly or via `fit_transform_x`), and otherwise returns the
reversed transform `X * x_std + x_mean` without error; symmetrically for
`inverse_transform_y` and `fit_y`. -/
theorem C6_inverse_transform_unfitted_error_iff (rsqrt : ℚ → ℚ)
    (targets : Option (List ℕ)) (tr : List ScalerOp) (X y : Arr3) :
    ((applyOps rsqrt (VectorScaler.init targets) tr).inverse_transform_x X =
        .error "Not fitted on X." ↔ tr.any ScalerOp.fitsX = false) ∧
    ((applyOps rsqrt (VectorScaler.init targets) tr).inverse_transform_x X =
        .ok (X.map (fun sm =>
          add2 (mul2 sm (applyOps rsqrt (VectorScaler.init targets) tr).x_std)
            (applyOps rsqrt (VectorScaler.init targets) tr).x_mean)) ↔
      tr.any ScalerOp.fitsX = true) ∧
    ((applyOps rsqrt (VectorScaler.init targets) tr).inverse_transform_y y =
        .error "Not fitted on y." ↔ tr.any ScalerOp.fitsY = false) ∧
    ((applyOps rsqrt (VectorScaler.init targets) tr).inverse_transform_y y =
        .ok (y.map (fun sm =>
          add2 (mul2 sm (applyOps rsqrt (VectorScaler.init targets) tr).y_std)
            (applyOps rsqrt (VectorScaler.init targets) tr).y_mean)) ↔
      tr.any ScalerOp.fitsY = true) := by
  have hx : (applyOps rsqrt (VectorScaler.init targets) tr).x_is_fitted =
      tr.any ScalerOp.fitsX := by
    rw [applyOps_fitted_x]
    rfl
  have hy : (applyOps rsqrt (VectorScaler.init targets) tr).y_is_fitted =
      tr.any ScalerOp.fitsY := by
    rw [applyOps_fitted_y]
    rfl
  refine ⟨?_, ?_, ?_, ?_⟩
  · cases ha : tr.any ScalerOp.fitsX <;>
      simp [VectorScaler.inverse_transform_x, hx, ha]
  · cases ha : tr.any ScalerOp.fitsX <;>
      simp [VectorScaler.inverse_transform_x, hx, ha]
  · cases ha : tr.any ScalerOp.fitsY <;>
      simp [VectorScaler.inverse_transform_y, hy, ha]
  · cases ha : tr.any ScalerOp.fitsY <;>
      simp [VectorScaler.inverse_transform_y, hy, ha]


/-! ## MetricsEvaluator (`cv.py`, lines 176-204)

The metric registry (`custom_metrics`, repository code not under `src/`)
is abstracted as a partial map `resolve : String → Option (Arr3 → Arr3 →
Option ℚ)`: `none` embeds a name `getattr` cannot resolve, and a metric
function returning `none` embeds a metric that raises when applied —
both are caught by the bare `except:` of `evaluate`. -/

/-- A metric registry. -/
abbrev MetricResolver := String → Option (Arr3 → Arr3 → Option ℚ)

/-- A tearsheet row: the successfully computed metrics of one
`evaluate` call (a failed metric is simply absent from the row, as in a
pandas row built from a partial dict — `NaN`, not a fabricated value). -/
abbrev MetricRow := List (String × ℚ)

/-- The constructor state of `MetricsEvaluator` (`cv.py`, lines 178-181). -/
structure MetricsEvaluator where
  metrics : List String
  tearsheet : List MetricRow
  filename : Option String
  deriving DecidableEq, Repr

namespace MetricsEvaluator

/-- Embedding of `MetricsEvaluator.__init__`: empty tearsheet over the configured
metric columns. -/
def mkEvaluator (metrics : List String) (filename : Option String) : MetricsEvaluator :=
  ⟨metrics, [], filename⟩

/-- Embedding of `reset` (`cv.py`, lines 203-204). -/
def reset (ev : MetricsEvaluator) : MetricsEvaluator :=
  { ev with tearsheet := [] }

/-- One iteration of the `try/except` metric loop of `evaluate`
(`cv.py`, lines 185-195): on success record `(metric, value)` in the
row, on any failure print the report and continue. -/
def evalStep (resolve : MetricResolver) (ys yt : Arr3)
    (acc : MetricRow × List String) (m : String) : MetricRow × List String :=
  match resolve m with
  | none => (acc.1, acc.2 ++ [m ++ " not a valid metric"])
  | some f =>
    match f ys yt with
    | none => (acc.1, acc.2 ++ [m ++ " not a valid metric"])
    | some v => (acc.1 ++ [(m, v)], acc.2)

/-- The metric loop of `evaluate`: the computed row and the printed
failure reports. -/
def evalRow (resolve : MetricResolver) (metrics : List String) (ys yt : Arr3) :
    MetricRow × List String :=
  metrics.foldl (evalStep resolve ys yt) ([], [])

/-- Embedding of `evaluate` (`cv.py`, lines 183-198): compute every configured metric,
isolating per-metric failures, and append the single resulting row to the
tearsheet.  (The optional `to_pickle` persistence is outside the claim.)
Returns the updated evaluator and the printed reports. -/
def evaluate (resolve : MetricResolver) (ev : MetricsEvaluator) (ys yt : Arr3) :
    MetricsEvaluator × List String :=
  ({ ev with tearsheet := ev.tearsheet ++ [(evalRow resolve ev.metrics ys yt).1] },
   (evalRow resolve ev.metrics ys yt).2)

end MetricsEvaluator

theorem evalRow_foldl_spec (resolve : MetricResolver) (ys yt : Arr3) :
    ∀ (metrics : List String) (acc : MetricRow × List String),
      metrics.foldl (MetricsEvaluator.evalStep resolve ys yt) acc =
        (acc.1 ++ metrics.filterMap
            (fun m => ((resolve m).bind (fun f => f ys yt)).map (fun v => (m, v))),
         acc.2 ++ (metrics.filter
            (fun m => ((resolve m).bind (fun f => f ys yt)).isNone)).map
            (fun m => m ++ " not a valid metric")) := by
  intro metrics
  induction metrics with
  | nil => intro acc; simp
  | cons m ms ih =>
    intro acc
    rw [List.foldl_cons, ih]
    cases hr : resolve m with
    | none =>
      simp [MetricsEvaluator.evalStep, hr, List.filterMap_cons, List.filter_cons]
    | some f =>
      cases hf : f ys yt with
      | none =>
        simp [MetricsEvaluator.evalStep, hr, hf, List.filterMap_cons, List.filter_cons]
      | some v =>
        simp [MetricsEvaluator.evalStep, hr, hf, List.filterMap_cons, List.filter_cons]

/-- Claim C7.  `evaluate` is a total function (no metric failure can raise
out of it), and for every registry and input: exactly one row is appended
to the tearsheet; the row records `(m, v)` precisely for the metrics that
resolve and compute a value `v`, in order, so every successful metric is
recorded even when others fail; failed metrics are simply absent from the
row (no substituted value); every failing metric is reported; and the
configured metric columns are unchanged. -/
theorem C7_metric_failures_isolated (resolve : MetricResolver)
    (ev : MetricsEvaluator) (ys yt : Arr3) :
    (ev.evaluate resolve ys yt).1.tearsheet =
      ev.tearsheet ++
        [ev.metrics.filterMap
          (fun m => ((resolve m).bind (fun f => f ys yt)).map (fun v => (m, v)))] ∧
    (ev.evaluate resolve ys yt).2 =
      (ev.metrics.filter
        (fun m => ((resolve m).bind (fun f => f ys yt)).isNone)).map
        (fun m => m ++ " not a valid metric") ∧
    (ev.evaluate resolve ys yt).1.metrics = ev.metrics := by
  have h := evalRow_foldl_spec resolve ys yt ev.metrics ([], [])
  refine ⟨?_, ?_, rfl⟩
  · show ev.tearsheet ++ [(MetricsEvaluator.evalRow resolve ev.metrics ys yt).1] = _
    rw [MetricsEvaluator.evalRow, h]
    simp
  · show (MetricsEvaluator.evalRow resolve ev.metrics ys yt).2 = _
    rw [MetricsEvaluator.evalRow, h]
    simp


/-! ## CrossValidator (`cv.py`, lines 18-77)

The external forecaster (spec §6) is opaque: a mutable fittedness flag
`_is_fitted` plus weights of an arbitrary type `W`, with `fit`/`predict`
behavior supplied as parameters. -/

/-- The forecaster object: its flag and its opaque weights. -/
structure Forecaster (W : Type) where
  is_fitted : Bool
  weights : W

/-- The opaque behavior of the external forecaster. -/
structure ForecasterOps (W : Type) where
  fitW : W → Arr3 → Arr3 → W
  predictW : W → Arr3 → ℕ → Arr3

/-- Embedding of `forecaster.fit(X, y)`: updates the weights and marks the forecaster
fitted. -/
def Forecaster.fit {W : Type} (ops : ForecasterOps W) (f : Forecaster W)
    (X y : Arr3) : Forecaster W :=
  ⟨true, ops.fitW f.weights X y⟩

/-- Embedding of `forecaster.predict(X, n_samples)`. -/
def Forecaster.predict {W : Type} (ops : ForecasterOps W) (f : Forecaster W)
    (X : Arr3) (n : ℕ) : Arr3 :=
  ops.predictW f.weights X n

/-- The constructor state of `CrossValidator` (`cv.py`, lines 35-45).
`folds` is the sequence the fold generator callable yields on one
invocation (`FoldGenerator.generate_folds` produces exactly such a
sequence; a `none` marks the point where the generator raises). -/
structure CrossValidator (W : Type) where
  forecaster : Forecaster W
  folds : List (Option Fold)
  evaluator : MetricsEvaluator
  scaler : Option VectorScaler

/-- The mutable state threaded through the fold loop of `evaluate`. -/
structure EvalState (W : Type) where
  forecaster : Forecaster W
  evaluator : MetricsEvaluator
  scaler : Option VectorScaler

/-- One iteration of the fold loop of `CrossValidator.evaluate`
(`cv.py`, lines 51-75): mark the forecaster not fitted, optionally scale
(the scaling step is guarded by `if self.scaler:`), fit, predict, then
*unconditionally* call `self.scaler.inverse_transform_y` — an
`AttributeError` when no scaler is configured.  Returns the fittedness
flags observed immediately before each `fit` call of this iteration,
and the next state or the exception aborting the run (a `none` fold is
the generator itself raising). -/
def evalFoldStep {W : Type} (rsqrt : ℚ → ℚ) (resolve : MetricResolver)
    (ops : ForecasterOps W) (n_samples : ℕ) (st : EvalState W) (fo : Option Fold) :
    List Bool × Except String (EvalState W) :=
  match fo with
  | none => ([], .error "IndexError: index out of bounds")
  | some fold =>
    let f0 : Forecaster W := ⟨false, st.forecaster.weights⟩
    ([f0.is_fitted],
      match st.scaler with
      | some sc =>
        let p1 := sc.fit_transform_x rsqrt fold.X_train
        let sc1 := p1.1
        let X_train := p1.2
        let X_test := sc1.transform_x fold.X_test
        let p2 := sc1.fit_transform_y rsqrt fold.y_train
        let sc2 := p2.1
        let y_train := p2.2
        let f1 := Forecaster.fit ops f0 X_train y_train
        let y_pred := Forecaster.predict ops f1 X_test n_samples
        match sc2.inverse_transform_y y_pred with
        | .ok y_inv =>
          .ok ⟨f1, (st.evaluator.evaluate resolve y_inv fold.y_test).1, some sc2⟩
        | .error e => .error e
      | none =>
        let f1 := Forecaster.fit ops f0 fold.X_train fold.y_train
        let _y_pred := Forecaster.predict ops f1 fold.X_test n_samples
        .error "AttributeError: NoneType object has no attribute inverse_transform_y")

/-- The fold loop: runs `evalFoldStep` over the yielded folds, stopping
at the first exception, and accumulates the observed flags. -/
def evalLoop {W : Type} (rsqrt : ℚ → ℚ) (resolve : MetricResolver)
    (ops : ForecasterOps W) (n_samples : ℕ) :
    List (Option Fold) → EvalState W → List Bool × Except String (EvalState W)
  | [], st => ([], .ok st)
  | fo :: rest, st =>
    match evalFoldStep rsqrt resolve ops n_samples st fo with
    | (obs, .error e) => (obs, .error e)
    | (obs, .ok st1) =>
      let r := evalLoop rsqrt resolve ops n_samples rest st1
      (obs ++ r.1, r.2)

/-- Embedding of `CrossValidator.evaluate` (`cv.py`, lines 47-77): reset the
evaluator, loop over the folds, return the tearsheet (or the exception
that aborted the run), together with the observed flags-before-fit. -/
def CrossValidator.evaluate {W : Type} (rsqrt : ℚ → ℚ) (resolve : MetricResolver)
    (ops : ForecasterOps W) (cv : CrossValidator W) (n_samples : ℕ) :
    List Bool × Except String (List MetricRow) :=
  let r := evalLoop rsqrt resolve ops n_samples cv.folds
    ⟨cv.forecaster, cv.evaluator.reset, cv.scaler⟩
  (r.1, r.2.map (fun st => st.evaluator.tearsheet))

theorem evalFoldStep_obs_false {W : Type} (rsqrt : ℚ → ℚ) (resolve : MetricResolver)
    (ops : ForecasterOps W) (n_samples : ℕ) (st : EvalState W) (fo : Option Fold) :
    ((evalFoldStep rsqrt resolve ops n_samples st fo).1).all (fun b => !b) = true := by
  cases fo <;> rfl

theorem evalLoop_obs_false {W : Type} (rsqrt : ℚ → ℚ) (resolve : MetricResolver)
    (ops : ForecasterOps W) (n_samples : ℕ) :
    ∀ (folds : List (Option Fold)) (st : EvalState W),
      ((evalLoop rsqrt resolve ops n_samples folds st).1).all (fun b => !b) = true := by
  intro folds
  induction folds with
  | nil => intro st; rfl
  | cons fo rest ih =>
    intro st
    have hobs := evalFoldStep_obs_false rsqrt resolve ops n_samples st fo
    rw [evalLoop]
    rcases hstep : evalFoldStep rsqrt resolve ops n_samples st fo with ⟨obs, r⟩
    rw [hstep] at hobs
    cases r with
    | error e => exact hobs
    | ok st1 =>
      simp only [List.all_append]
      rw [hobs, ih st1]
      rfl

/-- Claim C8.  During every `CrossValidator.evaluate` run — for every
forecaster behavior, scaler configuration and fold sequence — the
forecaster fittedness flag observed immediately before each per-fold
`fit` call is `False`: the forecaster is marked not-yet-fitted at the
start of every fold iteration (`forecaster._is_fitted = False`), and
nothing between that assignment and the `fit` call touches the
forecaster, forcing a full refit with no cross-fold weight reuse. -/
theorem C8_flag_false_before_each_fit {W : Type} (rsqrt : ℚ → ℚ)
    (resolve : MetricResolver) (ops : ForecasterOps W) (cv : CrossValidator W)
    (n_samples : ℕ) :
    ((CrossValidator.evaluate rsqrt resolve ops cv n_samples).1).all
      (fun b => !b) = true :=
  evalLoop_obs_false rsqrt resolve ops n_samples cv.folds
    ⟨cv.forecaster, cv.evaluator.reset, cv.scaler⟩

/-- Claim C10.  With `scaler=None` and a fold generator yielding at least
one fold, `evaluate` always fails on the first fold: the scaling of the
inputs is guarded by `if self.scaler:`, but
`self.scaler.inverse_transform_y(y_pred_samples)` is invoked
unconditionally, raising `AttributeError` on `None` — so exactly one
fold is fitted (`[false]` flag trace) and no tearsheet is returned. -/
theorem C10_scaler_none_evaluate_always_fails {W : Type} (rsqrt : ℚ → ℚ)
    (resolve : MetricResolver) (ops : ForecasterOps W) (cv : CrossValidator W)
    (n_samples : ℕ)
    (hsc : cv.scaler = none)
    (f0 : Fold) (rest : List (Option Fold)) (hf : cv.folds = some f0 :: rest) :
    (CrossValidator.evaluate rsqrt resolve ops cv n_samples).2 =
      .error "AttributeError: NoneType object has no attribute inverse_transform_y" ∧
    (CrossValidator.evaluate rsqrt resolve ops cv n_samples).1 = [false] := by
  have hstep : evalFoldStep rsqrt resolve ops n_samples
      (⟨cv.forecaster, cv.evaluator.reset, cv.scaler⟩ : EvalState W) (some f0) =
      ([false],
        .error "AttributeError: NoneType object has no attribute inverse_transform_y") := by
    simp only [evalFoldStep, hsc]
  have hloop : evalLoop rsqrt resolve ops n_samples (some f0 :: rest)
      (⟨cv.forecaster, cv.evaluator.reset, cv.scaler⟩ : EvalState W) =
      ([false],
        .error "AttributeError: NoneType object has no attribute inverse_transform_y") := by
    rw [evalLoop, hstep]
  constructor
  · show (evalLoop rsqrt resolve ops n_samples cv.folds
        (⟨cv.forecaster, cv.evaluator.reset, cv.scaler⟩ : EvalState W)).2.map
        (fun st => st.evaluator.tearsheet) = _
    rw [hf, hloop]
    rfl
  · show (evalLoop rsqrt resolve ops n_samples cv.folds
        (⟨cv.forecaster, cv.evaluator.reset, cv.scaler⟩ : EvalState W)).1 = _
    rw [hf, hloop]

/-- The trivial forecaster behavior and scaler-less validator used by
the C10 witness. -/
def opsTrivial : ForecasterOps Unit := ⟨fun _ _ _ => (), fun _ _ _ => []⟩

def cvNoScaler : CrossValidator Unit :=
  ⟨⟨false, ()⟩, [some ⟨[], [], [], []⟩], MetricsEvaluator.mkEvaluator [] none, none⟩

theorem C10_witness :
    (CrossValidator.evaluate id (fun _ => none) opsTrivial cvNoScaler 3).2 =
      .error "AttributeError: NoneType object has no attribute inverse_transform_y" ∧
    (CrossValidator.evaluate id (fun _ => none) opsTrivial cvNoScaler 3).1 = [false] :=
  C10_scaler_none_evaluate_always_fails id (fun _ => none) opsTrivial cvNoScaler 3
    rfl ⟨[], [], [], []⟩ [] rfl


/-! ## Optimizer (`cv.py`, lines 13-15 and 80-116)

`def get_objective(self, **args, space):` is a Python `SyntaxError`
(a parameter cannot follow `**args`), so the routing claimed for this
method cannot run at all.  The embedding below models the body as it
would execute with the signature repaired to make it parseable: line 91
(`args = self.get_args()`) rebinds `args`, discarding the passed trial
values, and line 93 (`for key, value in args:`) iterates the *keys* of
the `get_args` dict (`"model"`, `"forecaster"`, `"optimizer"`) and
tuple-unpacks each key string into `(key, value)` — which raises
`ValueError` on the very first 5-character key `"model"`. -/

def __MODEL_ARGS__ : List String := ["filters", "num_layers"]

def __OPTIMIZER_ARGS__ : List String := ["lr"]

def __FORECASTER_ARGS__ : List String := ["epochs", "batch_size"]

/-- The argument-name lists `getargspec` extracts from the external
model, forecaster and internal-optimizer classes (`get_args`,
`cv.py` lines 108-116). -/
structure ArgSpecs where
  model : List String
  forecaster : List String
  optimizer : List String

/-- Embedding of `get_args`: the dict `{model: ..., forecaster: ..., optimizer: ...}`
in insertion order. -/
def Optimizer.get_args (a : ArgSpecs) : List (String × List String) :=
  [("model", a.model), ("forecaster", a.forecaster), ("optimizer", a.optimizer)]

/-- Python tuple unpacking `key, value = s` of a string `s`: succeeds
exactly for a 2-character string. -/
def pyUnpack2 (s : String) : Except String (Char × Char) :=
  match s.toList with
  | [a, b] => .ok (a, b)
  | l =>
    if l.length < 2 then .error "ValueError: not enough values to unpack (expected 2)"
    else .error "ValueError: too many values to unpack (expected 2)"

set_option linter.unusedVariables false in
/-- The body of `get_objective` (`cv.py`, lines 90-101) with its
signature repaired: `args = self.get_args()` discards `trial`; the loop
iterates the dict keys, unpacking each into `(key, value)`; a
2-character key would then be routed by the three membership tests (in
Python a `char` is a 1-character string, never equal to any multi-letter
argument name, so every reachable branch of the body is the final
`raise ValueError`); the `setattr` calls are unreachable and modelled as
no-ops. -/
def Optimizer.get_objective (a : ArgSpecs) (trial : List (String × ℚ)) :
    Except String Unit := do
  let args := Optimizer.get_args a
  let _ ← (args.map Prod.fst).mapM (fun kstr => do
    let kv ← pyUnpack2 kstr
    let k := String.singleton kv.1
    if k ∈ a.model ∧ k ∈ __MODEL_ARGS__ then
      pure ()
    else if k ∈ a.forecaster ∧ k ∈ __OPTIMIZER_ARGS__ then
      pure ()
    else if k ∈ a.forecaster ∧ k ∈ __FORECASTER_ARGS__ then
      pure ()
    else
      throw (k ++ " not a valid argument"))
  pure ()

/-- Claim C9 (the claim is right about the intent, the code is broken).
For every argument-spec and every trial, `get_objective` raises the
tuple-unpacking `ValueError` on the first dict key `"model"` before
routing anything: no hyperparameter is ever assigned, and the
claimed membership-based routing (and `ValueError` for unknown names
only) never runs.  (The method does not even parse in Python —
`def get_objective(self, **args, space)` is a `SyntaxError`.) -/
theorem C9_get_objective_never_routes (a : ArgSpecs) (trial : List (String × ℚ)) :
    Optimizer.get_objective a trial =
      .error "ValueError: too many values to unpack (expected 2)" := by
  rfl

end Deep4cast
